import Mathlib

/-!
Shallow embedding of the `math_tools` section-property engine and its
integer-algebra helper, with theorems checking the repository's
specification against the code.

Python floats are modelled as real numbers.  Operations that can raise a
Python exception are given an explicit error channel:
`Section.Sx`/`Section.Sy` and `parallel_axis` can raise
`ZeroDivisionError`, `tbeam` divides by `2 * area`, and
`make_odd` raises `ZeroDivisionError` on `0`.
-/

namespace SectionModulus

/-- `Section` dataclass from `src/math_tools/section_modulus.py`:
centroid is `((x_near, x_far), (y_near, y_far))`. -/
structure Section where
  centroid : (ℝ × ℝ) × (ℝ × ℝ) := ((0, 0), (0, 0))
  area : ℝ := 0
  moment_of_inertia : ℝ × ℝ := (0, 0)

def Section.Ixx (s : Section) : ℝ := s.moment_of_inertia.1

def Section.Iyy (s : Section) : ℝ := s.moment_of_inertia.2

/-- Result of evaluating a property that performs float division in Python:
`value` is a normal return, `zeroDivError` models an uncaught
`ZeroDivisionError` (Python raises on float division by `0.0`). -/
inductive DivResult where
  | value (v : ℝ × ℝ)
  | zeroDivError

/-- `Section.Sx` (current module, lines 23-25): divides `Ixx` by both
y-centroid distances with no guard, so a zero distance raises. -/
noncomputable def Section.Sx (s : Section) : DivResult :=
  if s.centroid.2.1 = 0 ∨ s.centroid.2.2 = 0 then .zeroDivError
  else .value (s.Ixx / s.centroid.2.1, s.Ixx / s.centroid.2.2)

/-- `Section.Sy` (current module): divides `Iyy` by both x-centroid
distances with no guard. -/
noncomputable def Section.Sy (s : Section) : DivResult :=
  if s.centroid.1.1 = 0 ∨ s.centroid.1.2 = 0 then .zeroDivError
  else .value (s.Iyy / s.centroid.1.1, s.Iyy / s.centroid.1.2)

/-- `circle(radius)` from `src/math_tools/section_modulus.py`. -/
noncomputable def circle (radius : ℝ) : Section :=
  { centroid := ((radius, radius), (radius, radius))
    area := Real.pi * radius ^ 2
    moment_of_inertia := (Real.pi * radius ^ 4 / 64, Real.pi * radius ^ 4 / 64) }

/-- `pipe(od, thickness)` from `src/math_tools/section_modulus.py`:
componentwise difference of the outer and inner circles, with no
validation of the thickness. -/
noncomputable def pipe (od thickness : ℝ) : Section :=
  let outer := circle (od / 2)
  let inner := circle (od / 2 - thickness)
  { centroid := outer.centroid
    area := outer.area - inner.area
    moment_of_inertia := (outer.Ixx - inner.Ixx, outer.Iyy - inner.Iyy) }

/-- `tbeam(depth, web_thick, flg_width, flg_thick)` from
`src/math_tools/section_modulus.py`.  Python raises `ZeroDivisionError`
when `2 * area == 0`, modelled as `none`. -/
noncomputable def tbeam (depth web_thick flg_width flg_thick : ℝ) : Option Section :=
  let height := depth - web_thick
  let area := flg_width * flg_thick + height * web_thick
  if area = 0 then none
  else
    let sum_b_d_squared := depth ^ 2 * web_thick + flg_thick ^ 2 * (flg_width - web_thick)
    let y := depth - sum_b_d_squared / (2 * area)
    let x := flg_width / 2
    let b_d_cubed := web_thick * y ^ 3 + flg_width * (depth - y) ^ 3
      - (flg_width - web_thick) * (depth - y - flg_thick) ^ 3
    some { centroid := ((x, x), (y, depth - y))
           area := area
           moment_of_inertia := (1 / 3 * b_d_cubed,
             web_thick ^ 3 * height / 12 + flg_width ^ 3 * flg_thick / 12) }

/-- Result of `parallel_axis`: Python raises `ZeroDivisionError` at
`d = moment / area` when the accumulated area is zero; otherwise it
returns a `(Section, i_de)` pair. -/
inductive PAResult where
  | zeroDivError
  | ok (s : Section) (i_de : ℝ)

/-- One iteration of the `parallel_axis` loop over state
`(prev, area, moment, i_de)` and strip `(width, height)`. -/
noncomputable def paStep (st : ℝ × ℝ × ℝ × ℝ) (wh : ℝ × ℝ) : ℝ × ℝ × ℝ × ℝ :=
  (wh.2,
   st.2.1 + wh.1 * (wh.2 - st.1),
   st.2.2.1 + wh.1 * (wh.2 ^ 2 - st.1 ^ 2) / 2,
   st.2.2.2 + wh.1 * (wh.2 ^ 3 - st.1 ^ 3) / 3)

/-- The accumulation loop of `parallel_axis`: `zip` pairs the two input
sequences (truncating to the shorter), starting from
`(axis_offset, 0, 0, 0)`. -/
noncomputable def paAcc (widths heights : List ℝ) (axis_offset : ℝ) : ℝ × ℝ × ℝ × ℝ :=
  (widths.zip heights).foldl paStep (axis_offset, 0, 0, 0)

/-- `parallel_axis(widths, heights, axis_offset)` from
`src/math_tools/section_modulus.py`. -/
noncomputable def parallel_axis (widths heights : List ℝ) (axis_offset : ℝ) : PAResult :=
  let st := paAcc widths heights axis_offset
  let prev := st.1
  let area := st.2.1
  let moment := st.2.2.1
  let i_de := st.2.2.2
  if area = 0 then .zeroDivError
  else
    let d := moment / area
    .ok { centroid := ((0, 0), (d, prev - d))
          area := area
          moment_of_inertia := (i_de - area * d ^ 2, 0) } i_de

end SectionModulus

namespace SectionModulusLegacy

/-- `circle(radius)` from the historical root-level `src/section_modulus.py`:
identical to the current one except the moment of inertia uses
`pi * radius**4 / 4`.  Its output has no `None` fields, so it lands in the
same `Section` record. -/
noncomputable def circle (radius : ℝ) : SectionModulus.Section :=
  { centroid := ((radius, radius), (radius, radius))
    area := Real.pi * radius ^ 2
    moment_of_inertia := (Real.pi * radius ^ 4 / 4, Real.pi * radius ^ 4 / 4) }

end SectionModulusLegacy

namespace SectionModulus

/-- C5: `circle(r)` has area `π r²`, `Ixx = Iyy = π r⁴ / 64`, and centroid
`(r, r)` on both axes. -/
theorem circle_properties (r : ℝ) :
    (circle r).area = Real.pi * r ^ 2 ∧
    (circle r).Ixx = Real.pi * r ^ 4 / 64 ∧
    (circle r).Iyy = Real.pi * r ^ 4 / 64 ∧
    (circle r).centroid = ((r, r), (r, r)) :=
  ⟨rfl, rfl, rfl, rfl⟩

/-- C6: `pipe(od, t)` equals `circle(od/2)` minus `circle(od/2 - t)`
componentwise in area, Ixx and Iyy, and keeps the outer circle's centroid. -/
theorem pipe_eq_circle_difference (od t : ℝ) :
    (pipe od t).area = (circle (od / 2)).area - (circle (od / 2 - t)).area ∧
    (pipe od t).Ixx = (circle (od / 2)).Ixx - (circle (od / 2 - t)).Ixx ∧
    (pipe od t).Iyy = (circle (od / 2)).Iyy - (circle (od / 2 - t)).Iyy ∧
    (pipe od t).centroid = (circle (od / 2)).centroid :=
  ⟨rfl, rfl, rfl, rfl⟩

/-- C3 counterexample: `pipe(10, 6)` (wall thicker than the outer radius)
does not fail: it returns a `Section`, and its area is `24π`, which is
positive because the negative inner radius is squared. -/
theorem pipe_10_6_returns_section :
    (pipe 10 6).area = 24 * Real.pi ∧ 0 < (pipe 10 6).area := by
  have h : (pipe 10 6).area = 24 * Real.pi := by
    show Real.pi * (10 / 2 : ℝ) ^ 2 - Real.pi * ((10 : ℝ) / 2 - 6) ^ 2 = 24 * Real.pi
    ring
  exact ⟨h, by rw [h]; positivity⟩

/-- C3 amended: `pipe` performs no geometry validation.  Even when
`thickness ≥ od/2` it returns the unvalidated componentwise circle
difference with the outer circle's centroid, never an error. -/
theorem pipe_no_validation (od t : ℝ) (_h : od / 2 ≤ t) :
    (pipe od t).area = Real.pi * (od / 2) ^ 2 - Real.pi * (od / 2 - t) ^ 2 ∧
    (pipe od t).centroid = ((od / 2, od / 2), (od / 2, od / 2)) :=
  ⟨rfl, rfl⟩

/-- Witness for `pipe_no_validation` at the spec's own error scenario
`pipe(10, 6)`. -/
theorem pipe_no_validation_witness :
    (10 : ℝ) / 2 ≤ 6 ∧
    ((pipe 10 6).area = Real.pi * (10 / 2) ^ 2 - Real.pi * ((10 : ℝ) / 2 - 6) ^ 2 ∧
     (pipe 10 6).centroid = ((10 / 2, 10 / 2), (10 / 2, 10 / 2))) :=
  ⟨by norm_num, pipe_no_validation 10 6 (by norm_num)⟩

/-- C1: for a single strip `([w], [h])` with offset 0 and `w, h > 0`,
`parallel_axis` returns `d = h/2` and `Ixx = w*h^3/12` (the rectangular
bar values), together with `area = w*h` and `i_de = w*h^3/3`. -/
theorem parallel_axis_single_strip (w h : ℝ) (hw : 0 < w) (hh : 0 < h) :
    parallel_axis [w] [h] 0 =
      .ok { centroid := ((0, 0), (h / 2, h / 2))
            area := w * h
            moment_of_inertia := (w * h ^ 3 / 12, 0) } (w * h ^ 3 / 3) := by
  have harea : w * h ≠ 0 := by positivity
  have hacc : paAcc [w] [h] 0 = (h, w * h, w * h ^ 2 / 2, w * h ^ 3 / 3) := by
    simp only [paAcc, List.zip_cons_cons, List.zip_nil_right, List.foldl_cons,
      List.foldl_nil, paStep, Prod.mk.injEq]
    norm_num
  simp only [parallel_axis, hacc]
  rw [if_neg harea]
  have hd : w * h ^ 2 / 2 / (w * h) = h / 2 := by
    field_simp
    ring
  rw [hd]
  have h2 : h - h / 2 = h / 2 := by ring
  have h3 : w * h ^ 3 / 3 - w * h * (h / 2) ^ 2 = w * h ^ 3 / 12 := by ring
  rw [h2, h3]

/-- Witness for `parallel_axis_single_strip` at `w = 1`, `h = 2`. -/
theorem parallel_axis_single_strip_witness :
    (0 : ℝ) < 1 ∧ (0 : ℝ) < 2 ∧
    parallel_axis [(1 : ℝ)] [2] 0 =
      .ok { centroid := ((0, 0), ((2 : ℝ) / 2, 2 / 2))
            area := 1 * 2
            moment_of_inertia := ((1 : ℝ) * 2 ^ 3 / 12, 0) } ((1 : ℝ) * 2 ^ 3 / 3) :=
  ⟨by norm_num, by norm_num, parallel_axis_single_strip 1 2 (by norm_num) (by norm_num)⟩

/-- C4 counterexample: the non-monotonic strip sequence
`widths = [1, 1]`, `heights = [2, 1]` is not rejected; `parallel_axis`
runs the accumulation and returns a result. -/
theorem parallel_axis_nonmonotonic_returns :
    parallel_axis [1, 1] [2, 1] 0 =
      .ok { centroid := ((0, 0), (1 / 2, 1 / 2))
            area := 1
            moment_of_inertia := (1 / 12, 0) } (1 / 3) := by
  have hacc : paAcc [(1 : ℝ), 1] [2, 1] 0 = (1, 1, 1 / 2, 1 / 3) := by
    simp only [paAcc, List.zip_cons_cons, List.zip_nil_right, List.foldl_cons,
      List.foldl_nil, paStep, Prod.mk.injEq]
    norm_num
  simp only [parallel_axis, hacc]
  rw [if_neg (by norm_num : (1 : ℝ) ≠ 0)]
  simp only [PAResult.ok.injEq, Section.mk.injEq, Prod.mk.injEq]
  norm_num

/-- C4 amended: `parallel_axis` performs no input validation.  The empty
input raises `ZeroDivisionError` at the final division (after the loop),
and in general the only failure is `ZeroDivisionError`, occurring exactly
when the accumulated area is zero. -/
theorem parallel_axis_error_iff_zero_area :
    (∀ off : ℝ, parallel_axis [] [] off = .zeroDivError) ∧
    ∀ ws hs off, parallel_axis ws hs off = PAResult.zeroDivError ↔
      (paAcc ws hs off).2.1 = 0 := by
  constructor
  · intro off
    simp [parallel_axis, paAcc]
  · intro ws hs off
    simp only [parallel_axis]
    split
    · simp_all
    · simp_all

/-- C9 counterexample: the unequal-length pair `([], [1])` does raise an
error (`ZeroDivisionError`, since the truncated input is empty and the
area stays 0). -/
theorem parallel_axis_unequal_lengths_error :
    parallel_axis [] [(1 : ℝ)] 0 = .zeroDivError := by
  simp [parallel_axis, paAcc]

/-- `zip` only consumes the common prefix of its two arguments. -/
theorem zip_take_min {α β : Type} (l₁ : List α) (l₂ : List β) :
    l₁.zip l₂ =
      (l₁.take (min l₁.length l₂.length)).zip (l₂.take (min l₁.length l₂.length)) := by
  induction l₁ generalizing l₂ with
  | nil => simp
  | cons a l₁ ih =>
    cases l₂ with
    | nil => simp
    | cons b l₂ =>
      simp only [List.zip_cons_cons, List.length_cons, Nat.succ_min_succ,
        List.take_succ_cons]
      rw [ih l₂]

/-- C9 amended: `parallel_axis` silently truncates to the first
`min(len(widths), len(heights))` strips and behaves exactly as on the
truncated sequences — including the error case; trailing extras never
affect the result. -/
theorem parallel_axis_truncates (ws hs : List ℝ) (off : ℝ) :
    parallel_axis ws hs off =
      parallel_axis (ws.take (min ws.length hs.length))
        (hs.take (min ws.length hs.length)) off := by
  have h1 : (ws.take (min ws.length hs.length)).zip
      (hs.take (min ws.length hs.length)) = ws.zip hs := (zip_take_min ws hs).symm
  simp only [parallel_axis, paAcc, h1]

/-- C2: `tbeam` returns area `bf*tf + (d-w)*w`, y-centroid pair
`(y, d-y)` with `y = d - (d²w + tf²(bf-w))/(2·area)`, and
`Ixx = (1/3)(w·y³ + bf·(d-y)³ - (bf-w)·(d-y-tf)³)`. -/
theorem tbeam_properties (depth web_thick flg_width flg_thick : ℝ)
    (h : 0 < flg_width * flg_thick + (depth - web_thick) * web_thick) :
    ∃ s, tbeam depth web_thick flg_width flg_thick = some s ∧
      s.area = flg_width * flg_thick + (depth - web_thick) * web_thick ∧
      s.centroid.2.1 = depth -
        (depth ^ 2 * web_thick + flg_thick ^ 2 * (flg_width - web_thick)) /
          (2 * s.area) ∧
      s.centroid.2.2 = depth - s.centroid.2.1 ∧
      s.Ixx = 1 / 3 * (web_thick * s.centroid.2.1 ^ 3
        + flg_width * (depth - s.centroid.2.1) ^ 3
        - (flg_width - web_thick) * (depth - s.centroid.2.1 - flg_thick) ^ 3) := by
  refine ⟨{ centroid := ((flg_width / 2, flg_width / 2),
              (depth - (depth ^ 2 * web_thick + flg_thick ^ 2 * (flg_width - web_thick)) /
                  (2 * (flg_width * flg_thick + (depth - web_thick) * web_thick)),
               depth - (depth -
                (depth ^ 2 * web_thick + flg_thick ^ 2 * (flg_width - web_thick)) /
                  (2 * (flg_width * flg_thick + (depth - web_thick) * web_thick)))))
            area := flg_width * flg_thick + (depth - web_thick) * web_thick
            moment_of_inertia := (1 / 3 * (web_thick * (depth -
                  (depth ^ 2 * web_thick + flg_thick ^ 2 * (flg_width - web_thick)) /
                    (2 * (flg_width * flg_thick + (depth - web_thick) * web_thick))) ^ 3
                + flg_width * (depth - (depth -
                  (depth ^ 2 * web_thick + flg_thick ^ 2 * (flg_width - web_thick)) /
                    (2 * (flg_width * flg_thick + (depth - web_thick) * web_thick)))) ^ 3
                - (flg_width - web_thick) * (depth - (depth -
                  (depth ^ 2 * web_thick + flg_thick ^ 2 * (flg_width - web_thick)) /
                    (2 * (flg_width * flg_thick + (depth - web_thick) * web_thick)))
                  - flg_thick) ^ 3),
              web_thick ^ 3 * (depth - web_thick) / 12 + flg_width ^ 3 * flg_thick / 12) },
         ?_, rfl, rfl, rfl, rfl⟩
  simp only [tbeam]
  rw [if_neg h.ne']

/-- Witness for `tbeam_properties` at `tbeam(4, 1, 3, 1)`. -/
theorem tbeam_properties_witness :
    (0 : ℝ) < 3 * 1 + (4 - 1) * 1 ∧
    ∃ s, tbeam 4 1 3 1 = some s ∧
      s.area = 3 * 1 + ((4 : ℝ) - 1) * 1 ∧
      s.centroid.2.1 = 4 -
        ((4 : ℝ) ^ 2 * 1 + (1 : ℝ) ^ 2 * (3 - 1)) / (2 * s.area) ∧
      s.centroid.2.2 = 4 - s.centroid.2.1 ∧
      s.Ixx = 1 / 3 * (1 * s.centroid.2.1 ^ 3
        + 3 * ((4 : ℝ) - s.centroid.2.1) ^ 3
        - ((3 : ℝ) - 1) * (4 - s.centroid.2.1 - 1) ^ 3) :=
  ⟨by norm_num, tbeam_properties 4 1 3 1 (by norm_num)⟩

/-- C7 counterexample: a `Section` with `Ixx = 1` and near y-distance 0
makes `Sx` raise `ZeroDivisionError` — it is not reported as an explicit
undefined component. -/
theorem sx_zero_distance_zde :
    (Section.mk ((1, 1), (0, 1)) 1 (1, 0)).Sx = DivResult.zeroDivError := by
  simp [Section.Sx]

/-- C7 amended: whenever a queried centroid distance is zero, `Sx`
(resp. `Sy`) raises an uncaught `ZeroDivisionError` instead of reporting
an undefined component. -/
theorem sx_sy_zero_distance_raise (s : Section) :
    (s.centroid.2.1 = 0 ∨ s.centroid.2.2 = 0 → s.Sx = DivResult.zeroDivError) ∧
    (s.centroid.1.1 = 0 ∨ s.centroid.1.2 = 0 → s.Sy = DivResult.zeroDivError) := by
  refine ⟨fun h => ?_, fun h => ?_⟩
  · simp only [Section.Sx]
    rw [if_pos h]
  · simp only [Section.Sy]
    rw [if_pos h]

/-- Witness for `sx_sy_zero_distance_raise` on a concrete section with
zero near distances on both axes. -/
theorem sx_sy_zero_distance_raise_witness :
    (Section.mk ((0, 2), (0, 2)) 1 (1, 1)).Sx = DivResult.zeroDivError ∧
    (Section.mk ((0, 2), (0, 2)) 1 (1, 1)).Sy = DivResult.zeroDivError :=
  ⟨(sx_sy_zero_distance_raise (Section.mk ((0, 2), (0, 2)) 1 (1, 1))).1 (Or.inl rfl),
   (sx_sy_zero_distance_raise (Section.mk ((0, 2), (0, 2)) 1 (1, 1))).2 (Or.inl rfl)⟩

/-- C8: the historical `circle` stores a moment of inertia 16 times the
current one (`π r⁴/4` vs `π r⁴/64`) while agreeing on area and centroid;
the two functions are not equal. -/
theorem circle_variants_inconsistent (r : ℝ) (_hr : 0 < r) :
    (SectionModulusLegacy.circle r).moment_of_inertia.1 =
        16 * (circle r).moment_of_inertia.1 ∧
    (SectionModulusLegacy.circle r).area = (circle r).area ∧
    (SectionModulusLegacy.circle r).centroid = (circle r).centroid ∧
    SectionModulusLegacy.circle ≠ circle := by
  refine ⟨?_, rfl, rfl, fun heq => ?_⟩
  · show Real.pi * r ^ 4 / 4 = 16 * (Real.pi * r ^ 4 / 64)
    ring
  · have h1 : (SectionModulusLegacy.circle 1).moment_of_inertia.1 =
        (circle 1).moment_of_inertia.1 := by rw [heq]
    have h2 : Real.pi * 1 ^ 4 / 4 = Real.pi * 1 ^ 4 / 64 := h1
    have hpi := Real.pi_pos
    norm_num at h2
    linarith

/-- Witness for `circle_variants_inconsistent` at `r = 1`. -/
theorem circle_variants_inconsistent_witness :
    (0 : ℝ) < 1 ∧
    ((SectionModulusLegacy.circle 1).moment_of_inertia.1 =
        16 * (circle 1).moment_of_inertia.1 ∧
     (SectionModulusLegacy.circle 1).area = (circle 1).area ∧
     (SectionModulusLegacy.circle 1).centroid = (circle 1).centroid ∧
     SectionModulusLegacy.circle ≠ circle) :=
  ⟨by norm_num, circle_variants_inconsistent 1 (by norm_num)⟩

end SectionModulus

namespace Algrebra

/-- The halving loop inside `make_odd` (`while num % 2 == 0: num >>= 1`).
The extra `num ≠ 0` conjunct in the guard only makes the function total:
it agrees with the source loop on every input where that loop terminates,
and `make_odd` dispatches to it only for nonzero input. -/
def oddPart (num : Nat) : Nat :=
  if h : num % 2 = 0 ∧ num ≠ 0 then oddPart (num / 2) else num
termination_by num
decreasing_by exact Nat.div_lt_self (Nat.pos_of_ne_zero h.2) (by norm_num)

/-- `make_odd(num)` from `src/math_tools/algrebra.py`: raises
`ZeroDivisionError` on 0 (modelled as `none`), otherwise divides by two
until odd. -/
def make_odd (num : Nat) : Option Nat :=
  if num = 0 then none else some (oddPart num)

/-- The `while a % 2 == 0 and b % 2 == 0` loop of `gcd`, returning the
shift count `d` and the reduced pair.  As with `oddPart`, the extra
`a ≠ 0` conjunct only makes the function total; `gcd` reaches this loop
only with both arguments positive, where it matches the source loop. -/
def stripTwos (d a b : Nat) : Nat × Nat × Nat :=
  if h : a % 2 = 0 ∧ b % 2 = 0 ∧ a ≠ 0 then stripTwos (d + 1) (a / 2) (b / 2)
  else (d, a, b)
termination_by a
decreasing_by exact Nat.div_lt_self (Nat.pos_of_ne_zero h.2.2) (by norm_num)

/-- Outcome of running (fueled) `gcd`: `diverge` means the fuel ran out,
`zeroDivError` that some `make_odd` call raised, `value g` a normal
return. -/
inductive GcdResult where
  | diverge
  | zeroDivError
  | value (g : Nat)
deriving DecidableEq

/-- The `while a != b` subtraction loop of `gcd`, with explicit fuel. -/
def gcdLoop : Nat → Nat → Nat → GcdResult
  | 0, _, _ => .diverge
  | fuel + 1, a, b =>
    if a = b then .value a
    else if b < a then
      match make_odd (a - b) with
      | none => .zeroDivError
      | some a2 => gcdLoop fuel a2 b
    else
      match make_odd (b - a) with
      | none => .zeroDivError
      | some b2 => gcdLoop fuel a b2

/-- `gcd(a, b)` from `src/math_tools/algrebra.py` with explicit fuel for
the subtraction loop: take absolute values, return the other argument if
one is zero, strip common factors of two, make both arguments odd, run
the subtraction loop, and rescale by `1 << d`. -/
def gcd (fuel : Nat) (a b : Int) : GcdResult :=
  let a0 := a.natAbs
  let b0 := b.natAbs
  if min a0 b0 = 0 then .value (max a0 b0)
  else
    let t := stripTwos 0 a0 b0
    match make_odd t.2.1 with
    | none => .zeroDivError
    | some a1 =>
      match make_odd t.2.2 with
      | none => .zeroDivError
      | some b1 =>
        match gcdLoop fuel a1 b1 with
        | .value g => .value (2 ^ t.1 * g)
        | r => r

theorem oddPart_odd : ∀ n, n ≠ 0 → oddPart n % 2 = 1 := by
  intro n
  induction n using Nat.strong_induction_on with
  | _ n ih =>
    intro hn
    rw [oddPart]
    split
    next h =>
      have hlt : n / 2 < n := Nat.div_lt_self (Nat.pos_of_ne_zero hn) (by norm_num)
      have hne : n / 2 ≠ 0 := by omega
      exact ih (n / 2) hlt hne
    next h => omega

theorem oddPart_le : ∀ n, oddPart n ≤ n := by
  intro n
  induction n using Nat.strong_induction_on with
  | _ n ih =>
    rw [oddPart]
    split
    next h =>
      exact le_trans
        (ih (n / 2) (Nat.div_lt_self (Nat.pos_of_ne_zero h.2) (by norm_num)))
        (Nat.div_le_self n 2)
    next h => exact le_refl n

theorem stripTwos_spec : ∀ a b d, 0 < a → 0 < b →
    0 < (stripTwos d a b).2.1 ∧ 0 < (stripTwos d a b).2.2 ∧
    (stripTwos d a b).2.1 ≤ a ∧ (stripTwos d a b).2.2 ≤ b := by
  intro a
  induction a using Nat.strong_induction_on with
  | _ a ih =>
    intro b d ha hb
    rw [stripTwos]
    split
    next h =>
      obtain ⟨h1, h2, h3, h4⟩ :=
        ih (a / 2) (by omega) (b / 2) (d + 1) (by omega) (by omega)
      exact ⟨h1, h2, le_trans h3 (by omega), le_trans h4 (by omega)⟩
    next h => exact ⟨ha, hb, le_refl a, le_refl b⟩

theorem gcdLoop_spec : ∀ n a b, a + b ≤ n → 0 < a → 0 < b →
    a % 2 = 1 → b % 2 = 1 →
    ∃ g, 0 < g ∧ ∀ fuel, a + b ≤ fuel → gcdLoop fuel a b = .value g := by
  intro n
  induction n using Nat.strong_induction_on with
  | _ n ih =>
    intro a b hab ha hb hao hbo
    by_cases heq : a = b
    · refine ⟨a, ha, fun fuel hfuel => ?_⟩
      obtain ⟨f, rfl⟩ : ∃ f, fuel = f + 1 := ⟨fuel - 1, by omega⟩
      simp [gcdLoop, heq]
    · by_cases hlt : b < a
      · have hsub : a - b ≠ 0 := by omega
        have hmo : make_odd (a - b) = some (oddPart (a - b)) := by
          rw [make_odd, if_neg hsub]
        have ha2odd : oddPart (a - b) % 2 = 1 := oddPart_odd _ hsub
        have ha2le : oddPart (a - b) ≤ a - b := oddPart_le _
        obtain ⟨g, hg, hrec⟩ := ih (n - 1) (by omega) (oddPart (a - b)) b
          (by omega) (by omega) hb ha2odd hbo
        refine ⟨g, hg, fun fuel hfuel => ?_⟩
        obtain ⟨f, rfl⟩ : ∃ f, fuel = f + 1 := ⟨fuel - 1, by omega⟩
        have hstep : gcdLoop (f + 1) a b = gcdLoop f (oddPart (a - b)) b := by
          simp [gcdLoop, heq, hlt, hmo]
        rw [hstep]
        exact hrec f (by omega)
      · have hgt : a < b := by omega
        have hsub : b - a ≠ 0 := by omega
        have hmo : make_odd (b - a) = some (oddPart (b - a)) := by
          rw [make_odd, if_neg hsub]
        have hb2odd : oddPart (b - a) % 2 = 1 := oddPart_odd _ hsub
        have hb2le : oddPart (b - a) ≤ b - a := oddPart_le _
        obtain ⟨g, hg, hrec⟩ := ih (n - 1) (by omega) a (oddPart (b - a))
          (by omega) ha (by omega) hao hb2odd
        refine ⟨g, hg, fun fuel hfuel => ?_⟩
        obtain ⟨f, rfl⟩ : ∃ f, fuel = f + 1 := ⟨fuel - 1, by omega⟩
        have hstep : gcdLoop (f + 1) a b = gcdLoop f a (oddPart (b - a)) := by
          simp [gcdLoop, heq, hlt, hmo]
        rw [hstep]
        exact hrec f (by omega)

/-- C10: for `(a, b)` not both zero, `gcd` terminates (any fuel of at
least `|a| + |b|` suffices and the result is fuel-independent), the
`ZeroDivisionError` branch of `make_odd` is never taken, and the result
is a positive integer. -/
theorem gcd_terminates_positive (a b : Int) (h : ¬(a = 0 ∧ b = 0)) :
    ∃ g, 0 < g ∧ ∀ fuel, a.natAbs + b.natAbs ≤ fuel →
      gcd fuel a b = .value g := by
  by_cases hmin : min a.natAbs b.natAbs = 0
  · refine ⟨max a.natAbs b.natAbs, ?_, fun fuel _ => ?_⟩
    · have h1 : a.natAbs ≠ 0 ∨ b.natAbs ≠ 0 := by
        rcases not_and_or.mp h with h1 | h1
        · exact Or.inl fun hz => h1 (Int.natAbs_eq_zero.mp hz)
        · exact Or.inr fun hz => h1 (Int.natAbs_eq_zero.mp hz)
      omega
    · simp only [gcd]
      rw [if_pos hmin]
  · have hapos : 0 < a.natAbs := by omega
    have hbpos : 0 < b.natAbs := by omega
    obtain ⟨hp1, hp2, hle1, hle2⟩ := stripTwos_spec a.natAbs b.natAbs 0 hapos hbpos
    have hmo1 : make_odd (stripTwos 0 a.natAbs b.natAbs).2.1 =
        some (oddPart (stripTwos 0 a.natAbs b.natAbs).2.1) := by
      rw [make_odd, if_neg (by omega)]
    have hmo2 : make_odd (stripTwos 0 a.natAbs b.natAbs).2.2 =
        some (oddPart (stripTwos 0 a.natAbs b.natAbs).2.2) := by
      rw [make_odd, if_neg (by omega)]
    have ha1odd : oddPart (stripTwos 0 a.natAbs b.natAbs).2.1 % 2 = 1 :=
      oddPart_odd _ (by omega)
    have hb1odd : oddPart (stripTwos 0 a.natAbs b.natAbs).2.2 % 2 = 1 :=
      oddPart_odd _ (by omega)
    have ha1le : oddPart (stripTwos 0 a.natAbs b.natAbs).2.1 ≤
        (stripTwos 0 a.natAbs b.natAbs).2.1 := oddPart_le _
    have hb1le : oddPart (stripTwos 0 a.natAbs b.natAbs).2.2 ≤
        (stripTwos 0 a.natAbs b.natAbs).2.2 := oddPart_le _
    obtain ⟨g, hg, hrec⟩ := gcdLoop_spec
      (oddPart (stripTwos 0 a.natAbs b.natAbs).2.1 +
        oddPart (stripTwos 0 a.natAbs b.natAbs).2.2)
      (oddPart (stripTwos 0 a.natAbs b.natAbs).2.1)
      (oddPart (stripTwos 0 a.natAbs b.natAbs).2.2)
      le_rfl (by omega) (by omega) ha1odd hb1odd
    refine ⟨2 ^ (stripTwos 0 a.natAbs b.natAbs).1 * g, by positivity,
      fun fuel hfuel => ?_⟩
    have hloop : gcdLoop fuel (oddPart (stripTwos 0 a.natAbs b.natAbs).2.1)
        (oddPart (stripTwos 0 a.natAbs b.natAbs).2.2) = .value g :=
      hrec fuel (by omega)
    simp [gcd, hmin, hmo1, hmo2, hloop]

/-- Witness for `gcd_terminates_positive` at `gcd(48, 18)`. -/
theorem gcd_terminates_positive_witness :
    ¬((48 : Int) = 0 ∧ (18 : Int) = 0) ∧
    ∃ g, 0 < g ∧ ∀ fuel, (48 : Int).natAbs + (18 : Int).natAbs ≤ fuel →
      gcd fuel 48 18 = .value g :=
  ⟨by norm_num, gcd_terminates_positive 48 18 (by norm_num)⟩

end Algrebra
